import Mathlib

/-!
Verification of the data-consistency and aggregation core of the
construction-expense-tracker backend (`backend/server.js`).

The JavaScript code manipulates one JSON document
`{ last_updated, vendors, contracts, tags }`.  We embed that document and the
route handlers as pure Lean functions:

* JS numbers that flow through `parseFloat` are modelled as `Option ℚ`
  (`none` stands for a missing or non-numeric value, i.e. a `NaN` result);
  `parseFloat(x) || 0` becomes `parseOr0`.
* Optional / possibly-absent JSON fields are modelled as `Option` fields;
  JS truthiness on strings (`undefined`, `null` and `""` are falsy) is made
  explicit in the helpers below.
* Each Express handler is a function `Document → ... → Except ApiError Document`
  (plus extra outputs where the handler returns created records).  The
  `Except.ok` payload is exactly the document passed to the single `saveData`
  call of the handler; every early `return res.status(4xx)` of the source is an
  `Except.error`, produced before that call, so an error result means `saveData`
  was never invoked.  `saveData` itself only stamps `last_updated` with the
  current wall-clock time; the timestamp is irrelevant to every claim and is
  left unchanged by the embedded operations.
-/

namespace CET

/-- A payment record owned by a contract (`{id, date, amount, method, notes}`). -/
structure Payment where
  id : String
  date : String
  amount : Option ℚ
  method : String
  notes : String
deriving DecidableEq, Repr

/-- An uploaded-file record owned by a contract. -/
structure FileRecord where
  id : String
  filename : Option String
  originalFilename : String
deriving DecidableEq, Repr

/-- A stored contract.  Collection-valued fields may be absent in old data,
hence the `Option` wrappers (the JS code guards them with `x || []`). -/
structure Contract where
  id : String
  vendorId : Option String
  description : String
  contractAmount : Option ℚ
  estimatedCompletion : Option String
  tagIds : Option (List String)
  payments : Option (List Payment)
  files : Option (List FileRecord)
deriving DecidableEq, Repr

/-- A vendor record. -/
structure Vendor where
  id : String
  companyName : String
  contactName : String
  phone : String
  email : String
  address : String
deriving DecidableEq, Repr

/-- A tag record. -/
structure Tag where
  id : String
  name : String
  color : String
deriving DecidableEq, Repr

/-- The whole persisted document. -/
structure Document where
  vendors : List Vendor
  contracts : List Contract
  tags : List Tag
  last_updated : Option String
deriving DecidableEq, Repr

/-- Error kinds raised by the handlers (the transport maps them to
400 / 404 / 409 / parse-failure statuses). -/
inductive ApiError where
  | ValidationError
  | NotFound
  | Conflict
  | CorruptData
deriving DecidableEq, Repr

/-- The idiom `parseFloat(x) || 0`: a missing or non-numeric amount contributes `0`. -/
def parseOr0 : Option ℚ → ℚ
  | none => 0
  | some q => q

/-- JS string truthiness for an optional string: `undefined`, `null` and the
empty string are falsy. -/
def strFalsy : Option String → Bool
  | none => true
  | some s => s == ""

/-- Trimming as by `String.prototype.trim`: strip whitespace from both ends (expressed by
structural recursion over the character list so that it evaluates). -/
def jsTrim (s : String) : String :=
  String.mk (((s.data.dropWhile Char.isWhitespace).reverse.dropWhile
    Char.isWhitespace).reverse)

/-- Truthiness of `x?.trim()`: true iff the field is present and trims to a
non-empty string (`!x?.trim()` in the source is the negation of this). -/
def trimmedTruthy (o : Option String) : Bool :=
  jsTrim (o.getD "") != ""

/-- The idiom `x?.trim() || \x27\x27` (missing field or all-whitespace gives the empty string). -/
def trimOr (o : Option String) : String :=
  jsTrim (o.getD "")

/-- The idiom `x || null` on a string-valued field. -/
def jsOrNull : Option String → Option String
  | some s => if s == "" then none else some s
  | none => none

/-- The idiom `x || d` on a string-valued field with default `d`. -/
def jsOrStr (o : Option String) (d : String) : String :=
  match o with
  | some s => if s == "" then d else s
  | none => d

/-- Lookup `new Map(pairs).get(k)`: for duplicate keys a JS `Map` keeps the last
entry, so the lookup scans the reversed list. -/
def jsMapGet {α : Type} (pairs : List (String × α)) (k : String) : Option α :=
  (pairs.reverse.find? (fun p => p.1 == k)).map (fun p => p.2)

/-- The reduce in `calculateContractTotals` and in both reports:
`payments.reduce((sum, p) => sum + (parseFloat(p.amount) || 0), 0)`. -/
def paidForContract (c : Contract) : ℚ :=
  (c.payments.getD []).foldl (fun sum payment => sum + parseOr0 payment.amount) 0

/-- Derived totals of `calculateContractTotals`. -/
structure Totals where
  paidTotal : ℚ
  balanceOwed : ℚ
deriving DecidableEq, Repr

/-- Function `calculateContractTotals(contract)` from the backend. -/
def calculateContractTotals (contract : Contract) : Totals :=
  let paidTotal := paidForContract contract
  let contractAmount := parseOr0 contract.contractAmount
  { paidTotal := paidTotal, balanceOwed := contractAmount - paidTotal }

/-- The enriched contract returned by `GET /api/contracts`. -/
structure ViewContract where
  contract : Contract
  paidTotal : ℚ
  balanceOwed : ℚ
  vendorName : String
  tags : List Tag
deriving DecidableEq, Repr

/-- The per-contract enrichment performed by `GET /api/contracts`. -/
def populateContract (doc : Document) (contract : Contract) : ViewContract :=
  let t := calculateContractTotals contract
  let vendor : Option Vendor :=
    match contract.vendorId with
    | some vid => jsMapGet (doc.vendors.map (fun v => (v.id, v))) vid
    | none => none
  { contract := contract
    paidTotal := t.paidTotal
    balanceOwed := t.balanceOwed
    vendorName := match vendor with
      | some v => v.companyName
      | none => "Unknown Vendor"
    tags := (contract.tagIds.getD []).filterMap
      (fun tagId => jsMapGet (doc.tags.map (fun t => (t.id, t))) tagId) }

/-- Handler of `GET /api/contracts`: enrich every stored contract and sort by vendor name
(the `localeCompare` comparator is modelled by the string order). -/
def getContracts (doc : Document) : List ViewContract :=
  (doc.contracts.map (populateContract doc)).mergeSort
    (fun a b => a.vendorName ≤ b.vendorName)

lemma foldl_add_map {α : Type} (f : α → ℚ) :
    ∀ (l : List α) (s : ℚ), l.foldl (fun a x => a + f x) s = s + (l.map f).sum := by
  intro l
  induction l with
  | nil => intro s; simp
  | cons x xs ih =>
      intro s
      simp only [List.foldl_cons, List.map_cons, List.sum_cons, ih]
      ring

lemma paidForContract_eq_sum (c : Contract) :
    paidForContract c = ((c.payments.getD []).map (fun p => parseOr0 p.amount)).sum := by
  unfold paidForContract
  rw [foldl_add_map]
  simp

/-- C1: every contract view produced by a read carries
`paidTotal = Σ parseFloat(amount) (missing or non-numeric ↦ 0)` over its
payments and `balanceOwed = parseFloat(contractAmount) (0 if unparseable)
minus paidTotal`; the values are recomputed from the stored payments by
`calculateContractTotals` on each read (the stored contract has no such
fields to copy from). -/
theorem contract_totals_recomputed (doc : Document) (v : ViewContract)
    (hv : v ∈ getContracts doc) :
    v.paidTotal = ((v.contract.payments.getD []).map (fun p => parseOr0 p.amount)).sum
      ∧ v.balanceOwed = parseOr0 v.contract.contractAmount - v.paidTotal := by
  unfold getContracts at hv
  rw [List.mem_mergeSort] at hv
  rcases List.mem_map.mp hv with ⟨c, _, rfl⟩
  constructor
  · exact paidForContract_eq_sum c
  · rfl

/-- A small concrete document exercising the totals claim. -/
def exPayment1 : Payment :=
  { id := "p1", date := "2024-01-01", amount := some 40, method := "check", notes := "" }

def exPayment2 : Payment :=
  { id := "p2", date := "2024-02-01", amount := none, method := "", notes := "" }

def exContract1 : Contract :=
  { id := "c1", vendorId := some "v1", description := "roof", contractAmount := some 100
    estimatedCompletion := none, tagIds := some ["t1"]
    payments := some [exPayment1, exPayment2], files := some [] }

def exVendor1 : Vendor :=
  { id := "v1", companyName := "Acme", contactName := "", phone := "", email := "", address := "" }

def exTag1 : Tag := { id := "t1", name := "roofing", color := "#ff0000" }

def exDoc1 : Document :=
  { vendors := [exVendor1], contracts := [exContract1], tags := [exTag1], last_updated := none }

theorem contract_totals_recomputed_witness :
    (populateContract exDoc1 exContract1 ∈ getContracts exDoc1)
      ∧ (populateContract exDoc1 exContract1).paidTotal
          = (((populateContract exDoc1 exContract1).contract.payments.getD []).map
              (fun p => parseOr0 p.amount)).sum
      ∧ (populateContract exDoc1 exContract1).balanceOwed
          = parseOr0 (populateContract exDoc1 exContract1).contract.contractAmount
              - (populateContract exDoc1 exContract1).paidTotal := by
  have hmem : populateContract exDoc1 exContract1 ∈ getContracts exDoc1 := by
    unfold getContracts
    rw [List.mem_mergeSort]
    simp [exDoc1]
  exact ⟨hmem, contract_totals_recomputed exDoc1 (populateContract exDoc1 exContract1) hmem⟩

/-! ### Spend-by-tag report (`GET /api/reports/spending-by-tag`) -/

/-- Number of occurrences of `k` in a list of tag ids (a JS `forEach` adds one
contribution per occurrence). -/
def occCount (k : String) : List String → ℕ
  | [] => 0
  | t :: ts => (if t = k then 1 else 0) + occCount k ts

/-- Test `tagMap.has(tid)` where the map is built from `doc.tags`. -/
def tagHas (tags : List Tag) (tid : String) : Bool :=
  tags.any (fun t => t.id == tid)

/-- Lookup `obj[k] || 0` on a JS object modelled as an association list in key
insertion order. -/
def objGet0 : List (String × ℚ) → String → ℚ
  | [], _ => 0
  | p :: ps, k => if p.1 == k then p.2 else objGet0 ps k

/-- Assignment `obj[k] = v`: overwrite the entry if the key exists, else append (JS
objects keep string keys in insertion order). -/
def objSet : List (String × ℚ) → String → ℚ → List (String × ℚ)
  | [], k, v => [(k, v)]
  | p :: ps, k, v => if p.1 == k then (p.1, v) :: ps else p :: objSet ps k v

/-- Accumulation `obj[k] = (obj[k] || 0) + v`. -/
def bump (m : List (String × ℚ)) (k : String) (v : ℚ) : List (String × ℚ) :=
  objSet m k (objGet0 m k + v)

/-- The body of the `contracts.forEach` loop of the spend-by-tag report:
skip non-positive spend, attribute to "Untagged" when the tag list is empty,
otherwise add the full paid amount to the bucket of every existing tag. -/
def spendingByTagStep (tags : List Tag) (acc : List (String × ℚ) × ℚ) (c : Contract) :
    List (String × ℚ) × ℚ :=
  if paidForContract c ≤ 0 then acc
  else if (c.tagIds.getD []).isEmpty then (acc.1, acc.2 + paidForContract c)
  else ((c.tagIds.getD []).foldl
          (fun m tid => if tagHas tags tid then bump m tid (paidForContract c) else m) acc.1,
        acc.2)

/-- The accumulated `(spendingByTag, untaggedSpending)` state of the report. -/
def spendingByTag (doc : Document) : List (String × ℚ) × ℚ :=
  doc.contracts.foldl (spendingByTagStep doc.tags) ([], 0)

/-- The `totalSpent` accumulator of the spend-by-vendor report
(Σ of all payment amounts over all contracts). -/
def totalSpent (doc : Document) : ℚ :=
  doc.contracts.foldl (fun s c => s + paidForContract c) 0

/-- Sum of every bucket the spend-by-tag report emits: the per-tag entries
(each guarded by a successful `tagMap.get`) plus the "Untagged" bucket, which
is emitted only when strictly positive. -/
def reportedTagTotal (doc : Document) : ℚ :=
  (((spendingByTag doc).1.filter (fun p => tagHas doc.tags p.1)).map (fun p => p.2)).sum
    + (if 0 < (spendingByTag doc).2 then (spendingByTag doc).2 else 0)

lemma objGet0_objSet_self (k : String) (v : ℚ) :
    ∀ m : List (String × ℚ), objGet0 (objSet m k v) k = v := by
  intro m
  induction m with
  | nil => simp [objSet, objGet0]
  | cons p ps ih =>
      by_cases h : (p.1 == k) = true
      · simp [objSet, objGet0, h]
      · simp [objSet, objGet0, h, ih]

lemma objGet0_objSet_ne (k : String) (v : ℚ) (k' : String) (hne : k' ≠ k) :
    ∀ m : List (String × ℚ), objGet0 (objSet m k v) k' = objGet0 m k' := by
  intro m
  induction m with
  | nil =>
      have hk : (k == k') = false := beq_eq_false_iff_ne.mpr (Ne.symm hne)
      simp [objSet, objGet0, hk]
  | cons p ps ih =>
      by_cases h : (p.1 == k) = true
      · have hp : p.1 = k := by simpa using h
        have hk : (p.1 == k') = false := beq_eq_false_iff_ne.mpr (by rw [hp]; exact Ne.symm hne)
        simp [objSet, objGet0, h, hk]
      · simp [objSet, objGet0, h, ih]

lemma objGet0_bump (m : List (String × ℚ)) (k : String) (v : ℚ) (k' : String) :
    objGet0 (bump m k v) k' = if k' = k then objGet0 m k' + v else objGet0 m k' := by
  unfold bump
  by_cases h : k' = k
  · subst h
    simp [objGet0_objSet_self]
  · simp [h, objGet0_objSet_ne k _ k' h m]

lemma objGet0_foldTags (tags : List Tag) (paid : ℚ) :
    ∀ (tids : List String) (m : List (String × ℚ)) (k : String),
      objGet0 (tids.foldl (fun m tid => if tagHas tags tid then bump m tid paid else m) m) k
        = objGet0 m k + (if tagHas tags k then (occCount k tids : ℚ) * paid else 0) := by
  intro tids
  induction tids with
  | nil => intro m k; simp [occCount]
  | cons t ts ih =>
      intro m k
      simp only [List.foldl_cons]
      by_cases ht : tagHas tags t = true
      · rw [if_pos ht, ih, objGet0_bump]
        by_cases hk : k = t
        · subst hk
          have h1 : occCount k (k :: ts) = 1 + occCount k ts := by simp [occCount]
          rw [h1, if_pos rfl, if_pos ht, if_pos ht]
          push_cast
          ring
        · have h1 : occCount k (t :: ts) = occCount k ts := by
            simp [occCount, Ne.symm hk]
          rw [h1, if_neg hk]
      · rw [if_neg ht, ih]
        by_cases hk : k = t
        · subst hk
          rw [if_neg ht, if_neg ht]
        · have h1 : occCount k (t :: ts) = occCount k ts := by
            simp [occCount, Ne.symm hk]
          rw [h1]

lemma spendingByTagStep_fst (tags : List Tag) (acc : List (String × ℚ) × ℚ)
    (c : Contract) (k : String) :
    objGet0 (spendingByTagStep tags acc c).1 k
      = objGet0 acc.1 k
        + (if 0 < paidForContract c ∧ tagHas tags k = true then
            (occCount k (c.tagIds.getD []) : ℚ) * paidForContract c
          else 0) := by
  unfold spendingByTagStep
  by_cases hp : paidForContract c ≤ 0
  · have hnot : ¬ (0 < paidForContract c ∧ tagHas tags k = true) := by
      rintro ⟨h1, _⟩; exact absurd hp (not_le.mpr h1)
    rw [if_pos hp, if_neg hnot, add_zero]
  · have hp' : 0 < paidForContract c := not_le.mp hp
    rw [if_neg hp]
    by_cases he : (c.tagIds.getD []).isEmpty = true
    · have hnil : c.tagIds.getD [] = [] := List.isEmpty_iff.mp he
      rw [if_pos he]
      simp [hnil, occCount, ite_self]
    · rw [if_neg he]
      dsimp only
      rw [objGet0_foldTags]
      by_cases ht : tagHas tags k = true
      · rw [if_pos ht, if_pos ⟨hp', ht⟩]
      · rw [if_neg ht, if_neg (by rintro ⟨_, h2⟩; exact ht h2)]

lemma spendingByTagStep_snd (tags : List Tag) (acc : List (String × ℚ) × ℚ)
    (c : Contract) :
    (spendingByTagStep tags acc c).2
      = acc.2
        + (if 0 < paidForContract c ∧ (c.tagIds.getD []).isEmpty = true then
            paidForContract c
          else 0) := by
  unfold spendingByTagStep
  by_cases hp : paidForContract c ≤ 0
  · have hnot : ¬ (0 < paidForContract c ∧ (c.tagIds.getD []).isEmpty = true) := by
      rintro ⟨h1, _⟩; exact absurd hp (not_le.mpr h1)
    rw [if_pos hp, if_neg hnot, add_zero]
  · have hp' : 0 < paidForContract c := not_le.mp hp
    rw [if_neg hp]
    by_cases he : (c.tagIds.getD []).isEmpty = true
    · rw [if_pos he, if_pos ⟨hp', he⟩]
    · rw [if_neg he, if_neg (by rintro ⟨_, h2⟩; exact he h2), add_zero]

lemma spend_foldl (tags : List Tag) (k : String) :
    ∀ (cs : List Contract) (acc : List (String × ℚ) × ℚ),
      objGet0 (cs.foldl (spendingByTagStep tags) acc).1 k
        = objGet0 acc.1 k
          + (cs.map (fun c =>
              if 0 < paidForContract c ∧ tagHas tags k = true then
                (occCount k (c.tagIds.getD []) : ℚ) * paidForContract c
              else 0)).sum
      ∧ (cs.foldl (spendingByTagStep tags) acc).2
        = acc.2
          + (cs.map (fun c =>
              if 0 < paidForContract c ∧ (c.tagIds.getD []).isEmpty = true then
                paidForContract c
              else 0)).sum := by
  intro cs
  induction cs with
  | nil => intro acc; simp
  | cons c cs ih =>
      intro acc
      obtain ⟨ih1, ih2⟩ := ih (spendingByTagStep tags acc c)
      constructor
      · rw [List.foldl_cons, ih1, spendingByTagStep_fst tags acc c k]
        simp only [List.map_cons, List.sum_cons]
        ring
      · rw [List.foldl_cons, ih2, spendingByTagStep_snd tags acc c]
        simp only [List.map_cons, List.sum_cons]
        ring

/-- C2: characterization of the spend-by-tag accumulators.  A contract whose
paid total is strictly positive contributes its **full** paid amount once per
occurrence of a tag id in its tag list to that tag's bucket (so a contract
with N tags contributes its entire paid total to all N buckets, never a split
share), and contributes its full paid amount to the "Untagged" bucket exactly
when its tag-id list is empty. -/
theorem spendingByTag_full_attribution (doc : Document) (k : String) :
    objGet0 (spendingByTag doc).1 k
      = (doc.contracts.map (fun c =>
          if 0 < paidForContract c ∧ tagHas doc.tags k = true then
            (occCount k (c.tagIds.getD []) : ℚ) * paidForContract c
          else 0)).sum
    ∧ (spendingByTag doc).2
      = (doc.contracts.map (fun c =>
          if 0 < paidForContract c ∧ (c.tagIds.getD []).isEmpty = true then
            paidForContract c
          else 0)).sum := by
  have h := spend_foldl doc.tags k doc.contracts ([], 0)
  unfold spendingByTag
  simpa [objGet0] using h

lemma fold_phantom (tags : List Tag) (paid : ℚ) :
    ∀ (tids : List String) (m : List (String × ℚ)),
      (∀ t ∈ tids, tagHas tags t = false) →
      tids.foldl (fun m tid => if tagHas tags tid then bump m tid paid else m) m = m := by
  intro tids
  induction tids with
  | nil => intro m _; rfl
  | cons t ts ih =>
      intro m habs
      have ht : tagHas tags t = false := habs t (List.mem_cons_self t ts)
      simp only [List.foldl_cons, ht, Bool.false_eq_true, if_false]
      exact ih m (fun x hx => habs x (List.mem_cons_of_mem t hx))

lemma spendingByTagStep_phantom (tags : List Tag) (c : Contract)
    (hne : (c.tagIds.getD []).isEmpty = false)
    (habs : ∀ tid ∈ c.tagIds.getD [], tagHas tags tid = false) :
    ∀ acc, spendingByTagStep tags acc c = acc := by
  intro acc
  unfold spendingByTagStep
  by_cases hp : paidForContract c ≤ 0
  · rw [if_pos hp]
  · rw [if_neg hp, if_neg (by simp [hne]),
      fold_phantom tags (paidForContract c) (c.tagIds.getD []) acc.1 habs]

/-- A contract whose only tag id refers to no existing tag: its spend shows up
in no report bucket. -/
def exPhantomContract : Contract :=
  { id := "c9", vendorId := some "v9", description := "ghost work"
    contractAmount := some 1000, estimatedCompletion := none
    tagIds := some ["ghost"]
    payments := some [{ id := "p9", date := "2024-03-01", amount := some 100
                        method := "", notes := "" }]
    files := some [] }

def exPhantomDoc : Document :=
  { vendors := [], contracts := [exPhantomContract], tags := [], last_updated := none }

/-- C10: a contract with strictly positive paid total whose (non-empty) tag-id
list mentions only non-existent tags contributes to no bucket of the
spend-by-tag report — removing it from the document leaves the report's
accumulators unchanged — and consequently the sum of all reported buckets can
be strictly less than the total spent. -/
theorem phantom_tag_contract_unreported (doc : Document)
    (pre post : List Contract) (c : Contract)
    (hdoc : doc.contracts = pre ++ c :: post)
    (hpos : 0 < paidForContract c)
    (hne : (c.tagIds.getD []).isEmpty = false)
    (habs : ∀ tid ∈ c.tagIds.getD [], tagHas doc.tags tid = false) :
    spendingByTag doc = spendingByTag { doc with contracts := pre ++ post }
      ∧ ∃ d : Document, reportedTagTotal d < totalSpent d := by
  constructor
  · unfold spendingByTag
    simp only [hdoc]
    rw [List.foldl_append, List.foldl_append, List.foldl_cons,
      spendingByTagStep_phantom doc.tags c hne habs]
  · refine ⟨exPhantomDoc, ?_⟩
    have h1 : reportedTagTotal exPhantomDoc = 0 := by
      norm_num [reportedTagTotal, spendingByTag, spendingByTagStep, exPhantomDoc,
        exPhantomContract, paidForContract, parseOr0, tagHas, bump, objSet, objGet0]
    have h2 : totalSpent exPhantomDoc = 100 := by
      norm_num [totalSpent, exPhantomDoc, exPhantomContract, paidForContract, parseOr0]
    rw [h1, h2]
    norm_num

theorem phantom_tag_contract_unreported_witness :
    spendingByTag exPhantomDoc = spendingByTag { exPhantomDoc with contracts := [] }
      ∧ ∃ d : Document, reportedTagTotal d < totalSpent d := by
  have h := phantom_tag_contract_unreported exPhantomDoc [] [] exPhantomContract rfl
    (by norm_num [paidForContract, exPhantomContract, parseOr0]) (by decide) (by decide)
  exact h

/-! ### Mutation operations

Each handler is embedded as `Document → ... → Except ApiError Document`.
The `Except.ok` payload is the document handed to the handler's single
`saveData` call; every early error return of the source happens before that
call and is an `Except.error`. -/

/-- The persisted state after running a handler on the loaded document `doc`:
only a successful handler reaches its `saveData` call, so an error leaves the
document that is on disk untouched. -/
def persistedDoc (doc : Document) : Except ApiError Document → Document
  | Except.ok d => d
  | Except.error _ => doc

/-- Update the first element satisfying `p` (the `findIndex` + assign-at-index
pattern of the source). -/
def updateFirst {α : Type} (p : α → Bool) (f : α → α) : List α → List α
  | [] => []
  | a :: as => if p a then f a :: as else a :: updateFirst p f as

lemma length_filter_eq_iff {α : Type} (p : α → Bool) (l : List α) :
    (l.filter p).length = l.length ↔ ∀ a ∈ l, p a = true := by
  constructor
  · intro h
    exact List.filter_eq_self.mp (List.Sublist.eq_of_length (List.filter_sublist l) h)
  · intro h
    rw [List.filter_eq_self.mpr h]

/-- Handler of `DELETE /api/tags/:tagId`: drop the tag (404 when nothing was dropped)
and strip the id from every contract's array-shaped `tagIds`. -/
def deleteTag (doc : Document) (tagId : String) : Except ApiError Document :=
  if (doc.tags.filter (fun tag => tag.id != tagId)).length = doc.tags.length then
    Except.error ApiError.NotFound
  else
    Except.ok { doc with
      tags := doc.tags.filter (fun tag => tag.id != tagId)
      contracts := doc.contracts.map (fun contract =>
        match contract.tagIds with
        | some ids => { contract with tagIds := some (ids.filter (fun id => id != tagId)) }
        | none => contract) }

/-- Handler of `DELETE /api/vendors/:vendorId`: Conflict when any contract references the
id, otherwise drop the vendor (404 when nothing was dropped). -/
def deleteVendor (doc : Document) (vendorId : String) : Except ApiError Document :=
  if doc.contracts.any (fun c => c.vendorId == some vendorId) then
    Except.error ApiError.Conflict
  else if (doc.vendors.filter (fun v => v.id != vendorId)).length = doc.vendors.length then
    Except.error ApiError.NotFound
  else
    Except.ok { doc with vendors := doc.vendors.filter (fun v => v.id != vendorId) }

/-- Referential integrity of tag references: every tag id mentioned by a
contract names an existing tag. -/
def tagRefsValid (doc : Document) : Prop :=
  ∀ c ∈ doc.contracts, ∀ tid ∈ c.tagIds.getD [], ∃ t ∈ doc.tags, t.id = tid

/-- C3: a successful tag deletion leaves no tag with the deleted id, no
contract still listing it, and preserves the invariant that contracts only
reference existing tags; the operation fails with NotFound exactly when no
tag carries the id. -/
theorem deleteTag_spec (doc : Document) (tagId : String) :
    (∀ d, deleteTag doc tagId = Except.ok d →
        ((∀ t ∈ d.tags, t.id ≠ tagId)
          ∧ (∀ c ∈ d.contracts, tagId ∉ c.tagIds.getD [])
          ∧ (tagRefsValid doc → tagRefsValid d)))
    ∧ (deleteTag doc tagId = Except.error ApiError.NotFound ↔
        ∀ t ∈ doc.tags, t.id ≠ tagId) := by
  unfold deleteTag
  by_cases h : (doc.tags.filter (fun tag => tag.id != tagId)).length = doc.tags.length
  · rw [if_pos h]
    refine ⟨fun d hd => Except.noConfusion hd, ?_, ?_⟩
    · intro _ t ht
      have h2 := (length_filter_eq_iff _ _).mp h t ht
      simpa using h2
    · intro _
      rfl
  · rw [if_neg h]
    constructor
    · intro d hd
      injection hd with hd'
      subst hd'
      refine ⟨?_, ?_, ?_⟩
      · intro t ht
        have h2 := List.of_mem_filter ht
        simpa using h2
      · intro c hc
        rcases List.mem_map.mp hc with ⟨c0, _, rfl⟩
        cases hids : c0.tagIds with
        | none => simp [hids]
        | some ids => simp [hids]
      · intro hvalid
        unfold tagRefsValid at hvalid ⊢
        intro c hc tid htid
        rcases List.mem_map.mp hc with ⟨c0, hc0, rfl⟩
        cases hids : c0.tagIds with
        | none =>
            simp [hids] at htid
        | some ids =>
            rw [hids] at htid
            simp only [Option.getD_some, List.mem_filter, bne_iff_ne, ne_eq] at htid
            obtain ⟨htid1, htid2⟩ := htid
            obtain ⟨t, ht, hteq⟩ := hvalid c0 hc0 tid (by rw [hids]; exact htid1)
            refine ⟨t, List.mem_filter.mpr ⟨ht, ?_⟩, hteq⟩
            simp [hteq, htid2]
    · constructor
      · intro hfalse
        exact Except.noConfusion hfalse
      · intro hall
        exact absurd ((length_filter_eq_iff _ _).mpr
          (fun t ht => by simpa using hall t ht)) h

theorem deleteTag_spec_witness :
    deleteTag exDoc1 ("zz") = Except.error ApiError.NotFound :=
  (deleteTag_spec exDoc1 ("zz")).2.mpr (by decide)

/-- C4: deleting a vendor referenced by a contract fails with Conflict and
performs no save; deleting an unreferenced, non-existent vendor fails with
NotFound; otherwise exactly the vendors carrying the id are removed and the
rest of the document is untouched. -/
theorem deleteVendor_spec (doc : Document) (vid : String) :
    ((doc.contracts.any (fun c => c.vendorId == some vid)) = true →
        deleteVendor doc vid = Except.error ApiError.Conflict
          ∧ persistedDoc doc (deleteVendor doc vid) = doc)
    ∧ ((doc.contracts.any (fun c => c.vendorId == some vid)) = false →
       (doc.vendors.any (fun v => v.id == vid)) = false →
        deleteVendor doc vid = Except.error ApiError.NotFound)
    ∧ (∀ d, deleteVendor doc vid = Except.ok d →
        d.vendors = doc.vendors.filter (fun v => v.id != vid)
          ∧ (∃ v ∈ doc.vendors, v.id = vid)
          ∧ d.contracts = doc.contracts ∧ d.tags = doc.tags) := by
  refine ⟨?_, ?_, ?_⟩
  · intro h
    unfold deleteVendor
    rw [if_pos h]
    exact ⟨rfl, rfl⟩
  · intro h1 h2
    unfold deleteVendor
    rw [if_neg (by simp [h1])]
    have hall : ∀ v ∈ doc.vendors, (v.id != vid) = true := by
      intro v hv
      have := List.any_eq_false.mp h2 v hv
      simpa using this
    rw [if_pos ((length_filter_eq_iff _ _).mpr hall)]
  · intro d hd
    unfold deleteVendor at hd
    by_cases h1 : (doc.contracts.any (fun c => c.vendorId == some vid)) = true
    · rw [if_pos h1] at hd
      exact Except.noConfusion hd
    · rw [if_neg h1] at hd
      by_cases h2 : (doc.vendors.filter (fun v => v.id != vid)).length = doc.vendors.length
      · rw [if_pos h2] at hd
        exact Except.noConfusion hd
      · rw [if_neg h2] at hd
        injection hd with hd'
        subst hd'
        refine ⟨rfl, ?_, rfl, rfl⟩
        by_contra hno
        push_neg at hno
        exact h2 ((length_filter_eq_iff _ _).mpr (fun v hv => by simpa using hno v hv))

theorem deleteVendor_spec_witness :
    deleteVendor exDoc1 ("v1") = Except.error ApiError.Conflict
      ∧ persistedDoc exDoc1 (deleteVendor exDoc1 ("v1")) = exDoc1 :=
  (deleteVendor_spec exDoc1 ("v1")).1 (by decide)

/-- C9: the referential-integrity check of vendor deletion runs before the
existence check, so a referenced id yields Conflict even when no such vendor
exists, and NotFound occurs exactly when the id is both unreferenced and
absent from the vendors collection. -/
theorem deleteVendor_conflict_precedence (doc : Document) (vid : String) :
    ((doc.contracts.any (fun c => c.vendorId == some vid)) = true →
        deleteVendor doc vid = Except.error ApiError.Conflict)
    ∧ (deleteVendor doc vid = Except.error ApiError.NotFound ↔
        ((doc.contracts.any (fun c => c.vendorId == some vid)) = false
          ∧ (doc.vendors.any (fun v => v.id == vid)) = false)) := by
  constructor
  · intro h
    unfold deleteVendor
    rw [if_pos h]
  · unfold deleteVendor
    by_cases h1 : (doc.contracts.any (fun c => c.vendorId == some vid)) = true
    · rw [if_pos h1]
      constructor
      · intro hfalse
        injection hfalse with hf
        exact ApiError.noConfusion hf
      · rintro ⟨h1', _⟩
        rw [h1] at h1'
        exact Bool.noConfusion h1'
    · rw [if_neg h1]
      by_cases h2 : (doc.vendors.filter (fun v => v.id != vid)).length = doc.vendors.length
      · rw [if_pos h2]
        constructor
        · intro _
          refine ⟨Bool.not_eq_true _ ▸ (by simpa using h1), ?_⟩
          rw [List.any_eq_false]
          intro v hv
          have := (length_filter_eq_iff _ _).mp h2 v hv
          simpa using this
        · intro _
          rfl
      · rw [if_neg h2]
        constructor
        · intro hfalse
          exact Except.noConfusion hfalse
        · rintro ⟨_, h2'⟩
          exfalso
          apply h2
          apply (length_filter_eq_iff _ _).mpr
          intro v hv
          have := List.any_eq_false.mp h2' v hv
          simpa using this

theorem deleteVendor_conflict_precedence_witness :
    deleteVendor exPhantomDoc ("v9") = Except.error ApiError.Conflict :=
  (deleteVendor_conflict_precedence exPhantomDoc ("v9")).1 (by decide)

/-! ### Persistence: `loadData` -/

/-- The field shape of a successfully parsed data file (any top-level field
may be missing). -/
structure RawDoc where
  last_updated : Option String
  vendors : Option (List Vendor)
  contracts : Option (List Contract)
  tags : Option (List Tag)
deriving DecidableEq, Repr

/-- The document `loadData` fabricates when there is nothing to read. -/
def emptyDocument : Document :=
  { vendors := [], contracts := [], tags := [], last_updated := none }

/-- Function `loadData`: `raw` is the state of the data file (`none` = the file does
not exist) and `jsonParse` is the platform JSON parser (`none` = it throws a
SyntaxError on that content).  The handler returns the empty structure for a
missing file, returns the empty structure for an existing empty file (the
`!data` check precedes parsing), maps a parse failure to the corrupt-data
error, and defaults each missing collection to an empty list. -/
def loadData (raw : Option String) (jsonParse : String → Option RawDoc) :
    Except ApiError Document :=
  match raw with
  | none => Except.ok emptyDocument
  | some data =>
    if data == "" then Except.ok emptyDocument
    else
      match jsonParse data with
      | none => Except.error ApiError.CorruptData
      | some parsedData =>
          Except.ok { last_updated := jsOrNull parsedData.last_updated
                      vendors := parsedData.vendors.getD []
                      contracts := parsedData.contracts.getD []
                      tags := parsedData.tags.getD [] }

/-- A JSON parser under which the empty string is not parseable, as with the
real `JSON.parse` (used at the single input of the counterexample below). -/
def jsonParseRejectingAll : String → Option RawDoc := fun _ => none

/-- C8 counterexample: the data file exists with empty content, which is not
parseable JSON, yet `loadData` answers the empty document instead of failing
with CorruptData (the `!data` check runs before `JSON.parse`). -/
theorem loadData_empty_file_counterexample :
    jsonParseRejectingAll ("") = none
      ∧ loadData (some ("")) jsonParseRejectingAll = Except.ok emptyDocument
      ∧ loadData (some ("")) jsonParseRejectingAll ≠ Except.error ApiError.CorruptData := by
  refine ⟨rfl, rfl, ?_⟩
  intro hfalse
  exact Except.noConfusion hfalse

/-- C8 amended: `loadData` returns the empty document when no file exists
and also when the file exists but is empty; a non-empty file whose content
cannot be parsed fails with CorruptData; a parsed file has each missing
collection field defaulted to an empty list. -/
theorem loadData_spec (jsonParse : String → Option RawDoc) :
    loadData none jsonParse = Except.ok emptyDocument
      ∧ loadData (some ("")) jsonParse = Except.ok emptyDocument
      ∧ (∀ s, s ≠ "" → jsonParse s = none →
          loadData (some s) jsonParse = Except.error ApiError.CorruptData)
      ∧ (∀ s p, s ≠ "" → jsonParse s = some p →
          loadData (some s) jsonParse
            = Except.ok { last_updated := jsOrNull p.last_updated
                          vendors := p.vendors.getD []
                          contracts := p.contracts.getD []
                          tags := p.tags.getD [] }) := by
  refine ⟨rfl, rfl, ?_, ?_⟩
  · intro s hs hp
    unfold loadData
    dsimp only
    rw [if_neg (by simpa using hs), hp]
  · intro s p hs hp
    unfold loadData
    dsimp only
    rw [if_neg (by simpa using hs), hp]

theorem loadData_spec_witness :
    loadData (some ("garbage")) jsonParseRejectingAll
      = Except.error ApiError.CorruptData :=
  (loadData_spec jsonParseRejectingAll).2.2.1 ("garbage") (by decide) rfl

/-! ### Contract creation and update -/

/-- Fields of a vendor request body or of an inline `newVendor` spec. -/
structure VendorReq where
  companyName : Option String
  contactName : Option String
  phone : Option String
  email : Option String
  address : Option String
deriving DecidableEq, Repr

/-- A `tagIds` value present in a request body: either an array of ids or any
other JSON value (`null`, string, number, object, ...). -/
inductive TagIdsField where
  | arr (ids : List String)
  | nonArray
deriving DecidableEq, Repr

/-- Body of `POST /api/contracts`. -/
structure ContractReq where
  vendorId : Option String
  newVendor : Option VendorReq
  description : Option String
  contractAmount : Option (Option ℚ)
  estimatedCompletion : Option String
  tagIds : Option TagIdsField
deriving DecidableEq, Repr

/-- Body of `PUT /api/contracts/:contractId`. -/
structure UpdateContractReq where
  description : Option String
  contractAmount : Option (Option ℚ)
  estimatedCompletion : Option String
  vendorId : Option String
  tagIds : Option TagIdsField
deriving DecidableEq, Repr

/-- Access `newVendor?.companyName`. -/
def newVendorName (o : Option VendorReq) : Option String :=
  o.bind (fun v => v.companyName)

/-- The `validTagIds` computation shared by contract create and update: keep
the candidate ids naming existing tags, in order, silently dropping the
rest. -/
def filterValidTagIds (tags : List Tag) (ids : List String) : List String :=
  ids.filter (fun id => tags.any (fun t => t.id == id))

/-- Computation of `validTagIds` from a request-level `tagIds` value: only an array-shaped
value contributes (create treats anything else as no tags). -/
def reqValidTagIds (tags : List Tag) (tagIds : Option TagIdsField) : List String :=
  match tagIds with
  | some (TagIdsField.arr ids) => filterValidTagIds tags ids
  | _ => []

/-- The vendor record created inline by `POST /api/contracts`. -/
def inlineVendor (nv : Option VendorReq) (newId : String) : Vendor :=
  { id := newId
    companyName := trimOr (newVendorName nv)
    contactName := trimOr (nv.bind (fun v => v.contactName))
    phone := trimOr (nv.bind (fun v => v.phone))
    email := trimOr (nv.bind (fun v => v.email))
    address := trimOr (nv.bind (fun v => v.address)) }

/-- The contract record built by `POST /api/contracts`. -/
def newContractOf (req : ContractReq) (contractNewId actualVendorId : String)
    (validTagIds : List String) (amount : ℚ) : Contract :=
  { id := contractNewId, vendorId := some actualVendorId
    description := trimOr req.description
    contractAmount := some amount
    estimatedCompletion := jsOrNull req.estimatedCompletion
    tagIds := some validTagIds, payments := some [], files := some [] }

/-- Handler of `POST /api/contracts`: validate, resolve the vendor (existing id or
inline creation), filter tag ids, append the new contract and save.  The ok
payload is the saved document, the created contract, and the inline-created
vendor when there is one. -/
def createContract (doc : Document) (req : ContractReq)
    (vendorNewId contractNewId : String) :
    Except ApiError (Document × Contract × Option Vendor) :=
  if trimmedTruthy req.description = false ∨ req.contractAmount = none then
    Except.error ApiError.ValidationError
  else if strFalsy req.vendorId = true
      ∧ trimmedTruthy (newVendorName req.newVendor) = false then
    Except.error ApiError.ValidationError
  else
    match req.contractAmount with
    | none => Except.error ApiError.ValidationError
    | some none => Except.error ApiError.ValidationError
    | some (some amount) =>
      if amount < 0 then Except.error ApiError.ValidationError
      else
        if strFalsy req.vendorId = true
            ∧ trimmedTruthy (newVendorName req.newVendor) = true then
          Except.ok
            ({ doc with
                vendors := doc.vendors ++ [inlineVendor req.newVendor vendorNewId]
                contracts := doc.contracts
                  ++ [newContractOf req contractNewId vendorNewId
                        (reqValidTagIds doc.tags req.tagIds) amount] },
              newContractOf req contractNewId vendorNewId
                (reqValidTagIds doc.tags req.tagIds) amount,
              some (inlineVendor req.newVendor vendorNewId))
        else if strFalsy req.vendorId = false then
          match req.vendorId with
          | some vid =>
            if (doc.vendors.any (fun v => v.id == vid)) = false then
              Except.error ApiError.ValidationError
            else
              Except.ok
                ({ doc with
                    contracts := doc.contracts
                      ++ [newContractOf req contractNewId vid
                            (reqValidTagIds doc.tags req.tagIds) amount] },
                  newContractOf req contractNewId vid
                    (reqValidTagIds doc.tags req.tagIds) amount,
                  none)
          | none => Except.error ApiError.ValidationError
        else
          Except.error ApiError.ValidationError

/-- The in-place field replacement performed on the stored contract by
`PUT /api/contracts/:contractId`: `tagIds` is overwritten with the filtered
request list only when the request field holds an array, otherwise the stored
list is spread through unchanged. -/
def applyContractUpdate (req : UpdateContractReq) (tags : List Tag)
    (vid : String) (amount : ℚ) (c : Contract) : Contract :=
  { c with
    description := trimOr req.description
    contractAmount := some amount
    estimatedCompletion := jsOrNull req.estimatedCompletion
    vendorId := some vid
    tagIds := (match req.tagIds with
      | some (TagIdsField.arr ids) => some (filterValidTagIds tags ids)
      | _ => c.tagIds) }

/-- Handler of `PUT /api/contracts/:contractId`: validate, check the vendor and the
contract, then update the stored contract in place; `tagIds` is replaced by
the filtered request list when the field holds an array, kept unchanged when
the field is absent, and rejected when it holds anything else. -/
def updateContract (doc : Document) (contractId : String)
    (req : UpdateContractReq) : Except ApiError Document :=
  if trimmedTruthy req.description = false ∨ req.contractAmount = none
      ∨ strFalsy req.vendorId = true then
    Except.error ApiError.ValidationError
  else
    match req.contractAmount with
    | none => Except.error ApiError.ValidationError
    | some none => Except.error ApiError.ValidationError
    | some (some amount) =>
      if amount < 0 then Except.error ApiError.ValidationError
      else
        match req.vendorId with
        | none => Except.error ApiError.ValidationError
        | some vid =>
          if (doc.vendors.any (fun v => v.id == vid)) = false then
            Except.error ApiError.ValidationError
          else if (doc.contracts.any (fun c => c.id == contractId)) = false then
            Except.error ApiError.NotFound
          else
            match req.tagIds with
            | some TagIdsField.nonArray => Except.error ApiError.ValidationError
            | _ =>
              Except.ok
                { doc with
                  contracts := updateFirst (fun c => c.id == contractId)
                      (applyContractUpdate req doc.tags vid amount) doc.contracts }

lemma find?_updateFirst {α : Type} (p : α → Bool) (f : α → α)
    (hf : ∀ a, p (f a) = p a) :
    ∀ l : List α, (updateFirst p f l).find? p = (l.find? p).map f := by
  intro l
  induction l with
  | nil => rfl
  | cons a as ih =>
      by_cases h : p a = true
      · rw [updateFirst, if_pos h, List.find?_cons_of_pos _ (by rw [hf a]; exact h),
          List.find?_cons_of_pos _ h]
        rfl
      · rw [updateFirst, if_neg h, List.find?_cons_of_neg _ h,
          List.find?_cons_of_neg _ h, ih]

lemma find?_of_any {α : Type} (p : α → Bool) (l : List α)
    (h : l.any p = true) : ∃ a, l.find? p = some a := by
  have h2 : (l.find? p).isSome = true := by
    rw [List.find?_isSome]
    exact List.any_eq_true.mp h
  exact Option.isSome_iff_exists.mp h2

/-- C7: a successful contract creation that supplies an inline vendor spec
and no (truthy) `vendorId` appends exactly one new vendor, links the new
contract to it, and surfaces it in the response; a successful creation that
supplies a (truthy) `vendorId` creates no vendor. -/
theorem createContract_vendor_resolution (doc : Document) (req : ContractReq)
    (vendorNewId contractNewId : String) :
    (∀ d c cv, strFalsy req.vendorId = true →
        trimmedTruthy (newVendorName req.newVendor) = true →
        createContract doc req vendorNewId contractNewId = Except.ok (d, c, cv) →
        ∃ v : Vendor, v.id = vendorNewId ∧ d.vendors = doc.vendors ++ [v]
          ∧ c.vendorId = some vendorNewId ∧ cv = some v)
    ∧ (∀ d c cv vid, req.vendorId = some vid → vid ≠ "" →
        createContract doc req vendorNewId contractNewId = Except.ok (d, c, cv) →
        d.vendors = doc.vendors ∧ cv = none ∧ c.vendorId = some vid) := by
  constructor
  · intro d c cv h1 h2 hok
    unfold createContract at hok
    split at hok
    · exact Except.noConfusion hok
    · split at hok
      · exact Except.noConfusion hok
      · split at hok
        · exact Except.noConfusion hok
        · exact Except.noConfusion hok
        · split at hok
          · exact Except.noConfusion hok
          · split at hok
            · simp only [Except.ok.injEq, Prod.mk.injEq] at hok
              obtain ⟨hd, hc, hcv⟩ := hok
              refine ⟨inlineVendor req.newVendor vendorNewId, rfl, ?_, ?_, ?_⟩
              · rw [← hd]
              · rw [← hc]
                rfl
              · rw [← hcv]
            · rename_i hcond
              exact absurd ⟨h1, h2⟩ hcond
  · intro d c cv vid hvid hne hok
    have hb : (vid == "") = false := beq_eq_false_iff_ne.mpr hne
    unfold createContract at hok
    rw [hvid] at hok
    simp only [strFalsy, hb, Bool.false_eq_true, false_and, if_false,
      eq_self_iff_true, if_true] at hok
    split at hok
    · exact Except.noConfusion hok
    · split at hok
      · exact Except.noConfusion hok
      · exact Except.noConfusion hok
      · split at hok
        · exact Except.noConfusion hok
        · split at hok
          · exact Except.noConfusion hok
          · simp only [Except.ok.injEq, Prod.mk.injEq] at hok
            obtain ⟨hd, hc, hcv⟩ := hok
            refine ⟨?_, ?_, ?_⟩
            · rw [← hd]
            · rw [← hcv]
            · rw [← hc]
              rfl

def exCreateReq : ContractReq :=
  { vendorId := none
    newVendor := some { companyName := some "NewCo", contactName := none
                        phone := none, email := none, address := none }
    description := some "patio"
    contractAmount := some (some 250)
    estimatedCompletion := none
    tagIds := none }

theorem createContract_vendor_resolution_witness :
    ∃ (d : Document) (c : Contract) (cv : Option Vendor) (v : Vendor),
      createContract exDoc1 exCreateReq ("nv1") ("nc1") = Except.ok (d, c, cv)
      ∧ v.id = "nv1" ∧ d.vendors = exDoc1.vendors ++ [v]
      ∧ c.vendorId = some ("nv1") ∧ cv = some v := by
  obtain ⟨d, c, cv, hok⟩ :
      ∃ d c cv, createContract exDoc1 exCreateReq ("nv1") ("nc1")
        = Except.ok (d, c, cv) := ⟨_, _, _, rfl⟩
  obtain ⟨v, hv1, hv2, hv3, hv4⟩ :=
    (createContract_vendor_resolution exDoc1 exCreateReq ("nv1") ("nc1")).1
      d c cv rfl rfl hok
  exact ⟨d, c, cv, v, hok, hv1, hv2, hv3, hv4⟩

/-- C6: on contract update, an array-shaped `tagIds` fully replaces the
stored list with the request list filtered to existing tag ids; an absent
`tagIds` leaves the stored list unchanged; a present but non-array `tagIds`
never succeeds, performs no save, and — when every other validation passes —
fails precisely with ValidationError. -/
theorem updateContract_tagIds_spec (doc : Document) (cid : String)
    (req : UpdateContractReq) :
    (∀ d ids, req.tagIds = some (TagIdsField.arr ids) →
        updateContract doc cid req = Except.ok d →
        ∃ c0, doc.contracts.find? (fun c => c.id == cid) = some c0
          ∧ (d.contracts.find? (fun c => c.id == cid)).map (fun c => c.tagIds)
              = some (some (filterValidTagIds doc.tags ids)))
    ∧ (∀ d, req.tagIds = none →
        updateContract doc cid req = Except.ok d →
        ∃ c0, doc.contracts.find? (fun c => c.id == cid) = some c0
          ∧ (d.contracts.find? (fun c => c.id == cid)).map (fun c => c.tagIds)
              = some c0.tagIds)
    ∧ (req.tagIds = some TagIdsField.nonArray →
        (∀ d, updateContract doc cid req ≠ Except.ok d)
          ∧ persistedDoc doc (updateContract doc cid req) = doc)
    ∧ (∀ vid q, req.tagIds = some TagIdsField.nonArray →
        trimmedTruthy req.description = true →
        req.contractAmount = some (some q) → ¬ q < 0 →
        req.vendorId = some vid → vid ≠ "" →
        (doc.vendors.any (fun v => v.id == vid)) = true →
        (doc.contracts.any (fun c => c.id == cid)) = true →
        updateContract doc cid req = Except.error ApiError.ValidationError) := by
  refine ⟨?_, ?_, ?_, ?_⟩
  · intro d ids htag hok
    unfold updateContract at hok
    split at hok
    · exact Except.noConfusion hok
    · cases hca : req.contractAmount with
      | none =>
          rw [hca] at hok
          exact Except.noConfusion hok
      | some ca =>
        rw [hca] at hok
        cases ca with
        | none => exact Except.noConfusion hok
        | some amount =>
          dsimp only at hok
          split at hok
          · exact Except.noConfusion hok
          · cases hvd : req.vendorId with
            | none =>
                rw [hvd] at hok
                exact Except.noConfusion hok
            | some vid =>
              rw [hvd] at hok
              dsimp only at hok
              split at hok
              · exact Except.noConfusion hok
              · split at hok
                · exact Except.noConfusion hok
                · rename_i hcfound
                  rw [htag] at hok
                  have hany : (doc.contracts.any (fun c => c.id == cid)) = true := by
                    simpa using hcfound
                  obtain ⟨c0, hc0⟩ := find?_of_any _ _ hany
                  refine ⟨c0, hc0, ?_⟩
                  injection hok with hok'
                  subst hok'
                  rw [find?_updateFirst (fun c => c.id == cid)
                      (applyContractUpdate req doc.tags vid amount)
                      (fun a => rfl) doc.contracts, hc0]
                  simp [applyContractUpdate, htag]
  · intro d htag hok
    unfold updateContract at hok
    split at hok
    · exact Except.noConfusion hok
    · cases hca : req.contractAmount with
      | none =>
          rw [hca] at hok
          exact Except.noConfusion hok
      | some ca =>
        rw [hca] at hok
        cases ca with
        | none => exact Except.noConfusion hok
        | some amount =>
          dsimp only at hok
          split at hok
          · exact Except.noConfusion hok
          · cases hvd : req.vendorId with
            | none =>
                rw [hvd] at hok
                exact Except.noConfusion hok
            | some vid =>
              rw [hvd] at hok
              dsimp only at hok
              split at hok
              · exact Except.noConfusion hok
              · split at hok
                · exact Except.noConfusion hok
                · rename_i hcfound
                  rw [htag] at hok
                  have hany : (doc.contracts.any (fun c => c.id == cid)) = true := by
                    simpa using hcfound
                  obtain ⟨c0, hc0⟩ := find?_of_any _ _ hany
                  refine ⟨c0, hc0, ?_⟩
                  injection hok with hok'
                  subst hok'
                  rw [find?_updateFirst (fun c => c.id == cid)
                      (applyContractUpdate req doc.tags vid amount)
                      (fun a => rfl) doc.contracts, hc0]
                  simp [applyContractUpdate, htag]
  · intro htag
    have herr : ∃ e, updateContract doc cid req = Except.error e := by
      unfold updateContract
      split
      · exact ⟨_, rfl⟩
      · split
        · exact ⟨_, rfl⟩
        · exact ⟨_, rfl⟩
        · split
          · exact ⟨_, rfl⟩
          · split
            · exact ⟨_, rfl⟩
            · split
              · exact ⟨_, rfl⟩
              · split
                · exact ⟨_, rfl⟩
                · rw [htag]
                  exact ⟨_, rfl⟩
    obtain ⟨e, he⟩ := herr
    constructor
    · intro d hfalse
      rw [he] at hfalse
      exact Except.noConfusion hfalse
    · rw [he]
      rfl
  · intro vid q htag hdesc hamt hneg hvid hvidne hvex hcex
    have hb : (vid == "") = false := beq_eq_false_iff_ne.mpr hvidne
    have hcond1 : ¬ (trimmedTruthy req.description = false
        ∨ req.contractAmount = none ∨ strFalsy req.vendorId = true) := by
      rintro (h | h | h)
      · rw [hdesc] at h
        exact Bool.noConfusion h
      · rw [hamt] at h
        exact Option.noConfusion h
      · rw [hvid] at h
        simp [strFalsy, hb] at h
    unfold updateContract
    rw [if_neg hcond1, hamt]
    dsimp only
    rw [if_neg (by exact hneg), hvid]
    dsimp only
    rw [if_neg (by simp [hvex]), if_neg (by simp [hcex]), htag]

def exUpdateReq : UpdateContractReq :=
  { description := some "roof rework"
    contractAmount := some (some 120)
    estimatedCompletion := none
    vendorId := some "v1"
    tagIds := some (TagIdsField.arr ["t1", "zz"]) }

theorem updateContract_tagIds_spec_witness :
    ∃ d c0, updateContract exDoc1 ("c1") exUpdateReq = Except.ok d
      ∧ exDoc1.contracts.find? (fun c => c.id == ("c1")) = some c0
      ∧ (d.contracts.find? (fun c => c.id == ("c1"))).map (fun c => c.tagIds)
          = some (some (filterValidTagIds exDoc1.tags ["t1", "zz"])) := by
  obtain ⟨d, hok⟩ :
      ∃ d, updateContract exDoc1 ("c1") exUpdateReq = Except.ok d := ⟨_, rfl⟩
  obtain ⟨c0, h1, h2⟩ :=
    (updateContract_tagIds_spec exDoc1 ("c1") exUpdateReq).1 d ["t1", "zz"] rfl hok
  exact ⟨d, c0, hok, h1, h2⟩

/-! ### The remaining mutation operations (for the no-save-on-error claim) -/

/-- Lower-casing as by `String.prototype.toLowerCase`, expressed over the
character list so that it evaluates. -/
def jsToLower (s : String) : String := String.mk (s.data.map Char.toLower)

/-- Remove the first element satisfying `p` (the `findIndex` + `splice`
pattern of the source). -/
def removeFirst {α : Type} (p : α → Bool) : List α → List α
  | [] => []
  | a :: as => if p a then as else a :: removeFirst p as

/-- Body of `POST /api/tags`. -/
structure TagReq where
  name : Option String
  color : Option String
deriving DecidableEq, Repr

/-- Handler of `POST /api/vendors`. -/
def createVendor (doc : Document) (req : VendorReq) (newId : String) :
    Except ApiError Document :=
  if trimmedTruthy req.companyName = false then
    Except.error ApiError.ValidationError
  else
    Except.ok
      { doc with
        vendors := doc.vendors ++
          [{ id := newId
             companyName := trimOr req.companyName
             contactName := trimOr req.contactName
             phone := trimOr req.phone
             email := trimOr req.email
             address := trimOr req.address }] }

/-- Handler of `PUT /api/vendors/:vendorId` (omitted fields keep their stored
value via `??`). -/
def updateVendor (doc : Document) (vendorId : String) (req : VendorReq) :
    Except ApiError Document :=
  if trimmedTruthy req.companyName = false then
    Except.error ApiError.ValidationError
  else if (doc.vendors.any (fun v => v.id == vendorId)) = false then
    Except.error ApiError.NotFound
  else
    Except.ok
      { doc with
        vendors := updateFirst (fun v => v.id == vendorId)
            (fun v =>
              { v with
                companyName := trimOr req.companyName
                contactName := (match req.contactName with
                  | some s => jsTrim s
                  | none => v.contactName)
                phone := (match req.phone with | some s => jsTrim s | none => v.phone)
                email := (match req.email with | some s => jsTrim s | none => v.email)
                address := (match req.address with
                  | some s => jsTrim s
                  | none => v.address) })
            doc.vendors }

/-- Handler of `POST /api/tags` (case-insensitive duplicate-name check). -/
def createTag (doc : Document) (req : TagReq) (newId : String) :
    Except ApiError Document :=
  if trimmedTruthy req.name = false then
    Except.error ApiError.ValidationError
  else if doc.tags.any (fun tag =>
      jsTrim (jsToLower tag.name) == jsTrim (jsToLower (req.name.getD ""))) then
    Except.error ApiError.Conflict
  else
    Except.ok
      { doc with
        tags := doc.tags ++
          [{ id := newId, name := trimOr req.name
             color := jsOrStr req.color ("#cccccc") }] }

/-- Handler of `DELETE /api/contracts/:contractId` (the on-disk file cleanup
is best-effort and does not touch the document). -/
def deleteContract (doc : Document) (contractId : String) :
    Except ApiError Document :=
  if (doc.contracts.any (fun c => c.id == contractId)) = false then
    Except.error ApiError.NotFound
  else
    Except.ok { doc with contracts := doc.contracts.filter (fun c => c.id != contractId) }

/-- Body of a payment create/update request. -/
structure PaymentReq where
  date : Option String
  amount : Option (Option ℚ)
  method : Option String
  notes : Option String
deriving DecidableEq, Repr

/-- Handler of `POST /api/contracts/:contractId/payments` (requires a date
and a strictly positive numeric amount). -/
def addPayment (doc : Document) (contractId : String) (req : PaymentReq)
    (newId : String) : Except ApiError Document :=
  if strFalsy req.date = true ∨ req.amount = none then
    Except.error ApiError.ValidationError
  else
    match req.amount with
    | none => Except.error ApiError.ValidationError
    | some none => Except.error ApiError.ValidationError
    | some (some paymentAmount) =>
      if paymentAmount ≤ 0 then Except.error ApiError.ValidationError
      else if (doc.contracts.any (fun c => c.id == contractId)) = false then
        Except.error ApiError.NotFound
      else
        Except.ok
          { doc with
            contracts := updateFirst (fun c => c.id == contractId)
                (fun c =>
                  { c with
                    payments := some ((c.payments.getD []) ++
                      [{ id := newId, date := req.date.getD ""
                         amount := some paymentAmount
                         method := jsOrStr req.method ("")
                         notes := trimOr req.notes }]) })
                doc.contracts }

/-- Handler of `PUT /api/contracts/:contractId/payments/:paymentId`. -/
def updatePayment (doc : Document) (contractId paymentId : String)
    (req : PaymentReq) : Except ApiError Document :=
  if strFalsy req.date = true ∨ req.amount = none then
    Except.error ApiError.ValidationError
  else
    match req.amount with
    | none => Except.error ApiError.ValidationError
    | some none => Except.error ApiError.ValidationError
    | some (some paymentAmount) =>
      if paymentAmount ≤ 0 then Except.error ApiError.ValidationError
      else
        match doc.contracts.find? (fun c => c.id == contractId) with
        | none => Except.error ApiError.NotFound
        | some contract =>
          match contract.payments with
          | none => Except.error ApiError.NotFound
          | some ps =>
            if (ps.any (fun p => p.id == paymentId)) = false then
              Except.error ApiError.NotFound
            else
              Except.ok
                { doc with
                  contracts := updateFirst (fun c => c.id == contractId)
                      (fun c =>
                        { c with
                          payments := some (updateFirst (fun p => p.id == paymentId)
                              (fun p =>
                                { p with
                                  date := req.date.getD ""
                                  amount := some paymentAmount
                                  method := (match req.method with
                                    | some m => m
                                    | none => p.method)
                                  notes := (match req.notes with
                                    | some n => jsTrim n
                                    | none => p.notes) })
                              (c.payments.getD [])) })
                      doc.contracts }

/-- Handler of `DELETE /api/contracts/:contractId/payments/:paymentId`. -/
def deletePayment (doc : Document) (contractId paymentId : String) :
    Except ApiError Document :=
  match doc.contracts.find? (fun c => c.id == contractId) with
  | none => Except.error ApiError.NotFound
  | some contract =>
    match contract.payments with
    | none => Except.error ApiError.NotFound
    | some ps =>
      if (ps.filter (fun p => p.id != paymentId)).length = ps.length then
        Except.error ApiError.NotFound
      else
        Except.ok
          { doc with
            contracts := updateFirst (fun c => c.id == contractId)
                (fun c =>
                  { c with
                    payments := some ((c.payments.getD []).filter
                      (fun p => p.id != paymentId)) })
                doc.contracts }

/-- Handler of `POST /api/contracts/:contractId/uploads`, document part: the
binary is already stored when the handler runs; only the metadata record is
appended (when the contract is missing the handler deletes the stored binary
and answers 404 without saving). -/
def addFileRecord (doc : Document) (contractId : String)
    (filename originalFilename newId : String) : Except ApiError Document :=
  if (doc.contracts.any (fun c => c.id == contractId)) = false then
    Except.error ApiError.NotFound
  else
    Except.ok
      { doc with
        contracts := updateFirst (fun c => c.id == contractId)
            (fun c =>
              { c with
                files := some ((c.files.getD []) ++
                  [{ id := newId, filename := some filename
                     originalFilename := originalFilename }]) })
            doc.contracts }

/-- Handler of `DELETE /api/contracts/:contractId/uploads/:fileId`, document
part: remove the metadata record (the later best-effort disk unlink does not
touch the document). -/
def deleteFileRecord (doc : Document) (contractId fileId : String) :
    Except ApiError Document :=
  match doc.contracts.find? (fun c => c.id == contractId) with
  | none => Except.error ApiError.NotFound
  | some contract =>
    match contract.files with
    | none => Except.error ApiError.NotFound
    | some fs =>
      if (fs.any (fun f => f.id == fileId)) = false then
        Except.error ApiError.NotFound
      else
        Except.ok
          { doc with
            contracts := updateFirst (fun c => c.id == contractId)
                (fun c =>
                  { c with
                    files := some (removeFirst (fun f => f.id == fileId)
                      (c.files.getD [])) })
                doc.contracts }

/-- C5: every mutation operation reaches its single `saveData` call only on
the success path; an operation that answers a validation, not-found or
conflict error returns before saving, so the persisted document stays exactly
the one that was loaded — no partial write. -/
theorem failed_mutations_never_save (doc : Document) (vreq : VendorReq)
    (treq : TagReq) (creq : ContractReq) (ureq : UpdateContractReq)
    (preq : PaymentReq) (vid tid cid pid fid nid fname oname : String) :
    (∀ e, createVendor doc vreq nid = Except.error e →
        persistedDoc doc (createVendor doc vreq nid) = doc)
    ∧ (∀ e, updateVendor doc vid vreq = Except.error e →
        persistedDoc doc (updateVendor doc vid vreq) = doc)
    ∧ (∀ e, deleteVendor doc vid = Except.error e →
        persistedDoc doc (deleteVendor doc vid) = doc)
    ∧ (∀ e, createTag doc treq nid = Except.error e →
        persistedDoc doc (createTag doc treq nid) = doc)
    ∧ (∀ e, deleteTag doc tid = Except.error e →
        persistedDoc doc (deleteTag doc tid) = doc)
    ∧ (∀ e, createContract doc creq nid cid = Except.error e →
        persistedDoc doc ((createContract doc creq nid cid).map (fun r => r.1)) = doc)
    ∧ (∀ e, updateContract doc cid ureq = Except.error e →
        persistedDoc doc (updateContract doc cid ureq) = doc)
    ∧ (∀ e, deleteContract doc cid = Except.error e →
        persistedDoc doc (deleteContract doc cid) = doc)
    ∧ (∀ e, addPayment doc cid preq nid = Except.error e →
        persistedDoc doc (addPayment doc cid preq nid) = doc)
    ∧ (∀ e, updatePayment doc cid pid preq = Except.error e →
        persistedDoc doc (updatePayment doc cid pid preq) = doc)
    ∧ (∀ e, deletePayment doc cid pid = Except.error e →
        persistedDoc doc (deletePayment doc cid pid) = doc)
    ∧ (∀ e, addFileRecord doc cid fname oname nid = Except.error e →
        persistedDoc doc (addFileRecord doc cid fname oname nid) = doc)
    ∧ (∀ e, deleteFileRecord doc cid fid = Except.error e →
        persistedDoc doc (deleteFileRecord doc cid fid) = doc) := by
  have key : ∀ (r : Except ApiError Document) (e : ApiError),
      r = Except.error e → persistedDoc doc r = doc := by
    intro r e hr
    rw [hr]
    rfl
  have keyc : ∀ (r : Except ApiError (Document × Contract × Option Vendor))
      (e : ApiError), r = Except.error e →
      persistedDoc doc (r.map (fun x => x.1)) = doc := by
    intro r e hr
    rw [hr]
    rfl
  exact ⟨fun e h => key _ e h, fun e h => key _ e h, fun e h => key _ e h,
    fun e h => key _ e h, fun e h => key _ e h, fun e h => keyc _ e h,
    fun e h => key _ e h, fun e h => key _ e h, fun e h => key _ e h,
    fun e h => key _ e h, fun e h => key _ e h, fun e h => key _ e h,
    fun e h => key _ e h⟩

theorem failed_mutations_never_save_witness :
    persistedDoc emptyDocument (deleteVendor emptyDocument ("v1"))
      = emptyDocument :=
  (failed_mutations_never_save emptyDocument
    { companyName := none, contactName := none, phone := none
      email := none, address := none }
    { name := none, color := none } exCreateReq exUpdateReq
    { date := none, amount := none, method := none, notes := none }
    ("v1") ("t1") ("c1") ("p1") ("f1") ("n1") ("a.pdf") ("b.pdf")).2.2.1
    ApiError.NotFound rfl

end CET
